import Mathlib

/-!
Verification of the multi-sensor sigma-point update of the fl Bayesian
filtering library against its natural-language specification.

The development shallowly embeds, over exact rational arithmetic:

* `multi_sensor_sigma_point_update_policy.hpp` — the fusion loop of
  `MultiSensorSigmaPointUpdatePolicy::operator()` (`msLoop`, `msUpdate`,
  `msUpdateWrite`, `policyUpdate`) together with its private `cov` helper
  (`covW`) and its member fields (`PolicyMembers`);
* `factorized_iid_observation_model.hpp` — the constructor, the dimension
  queries and the slice reads of `predict_observation`
  (`FactorizedIIDObservationModel`, `predictReadsInBounds`).

The point-set and quadrature collaborators (`point_set.hpp`,
`sigma_point_quadrature.hpp`) are not among the sources; every definition
that stands in for them is modelled from the specification and marked
`Modelled from the spec:` in its doc comment.  Matrix inversion is
Eigen's `.inverse()`, an external linear-algebra facility assumed correct
(spec §6); it is embedded as the adjugate-based inverse `minv`, which
agrees with Mathlib's `Matrix.inv` everywhere.
-/

namespace FL

/-- Column vectors of rationals, the embedding of Eigen column vectors. -/
abbrev Vec (n : ℕ) := Fin n → ℚ

/-- Rational matrices, the embedding of Eigen matrices. -/
abbrev Mat (m n : ℕ) := Matrix (Fin m) (Fin n) ℚ

/-- Eigen's `.inverse()` (an externally supplied linear-algebra facility),
embedded as the computable adjugate-based inverse.  It agrees with
Mathlib's noncomputable `Matrix.inv` on every input (`minv_eq_inv`). -/
def minv {n : ℕ} (A : Mat n n) : Mat n n := (A.det)⁻¹ • A.adjugate

/-- Modelled from the spec: a `PointSet` (spec §3, §4.1; `point_set.hpp` is
not among the sources) is an ordered sequence of `K` points of dimension
`d`, stored as the columns of a `d × K` matrix, together with a
mean-weight vector and a covariance-weight vector of length `K`. -/
structure PointSet (d K : ℕ) where
  points : Mat d K
  meanWeights : Vec K
  covWeights : Vec K

/-- Modelled from the spec: the weighted mean of a point set
(`mean-weights · points`, spec §3), the value returned by
`p.center()` in the source (lines 131, 146). -/
def PointSet.mean {d K : ℕ} (p : PointSet d K) : Vec d :=
  fun i => ∑ j, p.meanWeights j * p.points i j

/-- Modelled from the spec: the centered points (`points - mean`
broadcast, spec §3), the matrix the source reads back as `p.points()`
after `p.center()` (lines 132, 147; spec §4.4 step 2 calls it
`centered_points()`). -/
def PointSet.centered {d K : ℕ} (p : PointSet d K) : Mat d K :=
  fun i j => p.points i j - p.mean i

/-- The private `cov` helper of `MultiSensorSigmaPointUpdatePolicy`
(source lines 180–186): `cov(a, b) = a · diag(w) · bᵀ` where `w` is the
covariance-weight vector of the state point set `p_X`, used for both
operands. -/
def covW {K da db : ℕ} (w : Vec K) (a : Mat da K) (b : Mat db K) : Mat da db :=
  a * Matrix.diagonal w * b.transpose

/-- Modelled from the spec: `propagate_points` (spec §4.2;
`sigma_point_quadrature.hpp` is not among the sources) applies the
observation function column-wise to paired state/noise columns and reuses
the same weight vectors. -/
def propagatePoints {dx dq dy K : ℕ} (h : Vec dx → Vec dq → Vec dy)
    (pX : PointSet dx K) (pQ : PointSet dq K) : PointSet dy K where
  points := fun i j => h (fun r => pX.points r j) (fun r => pQ.points r j) i
  meanWeights := pX.meanWeights
  covWeights := pX.covWeights

/-- The local observation model shared across sensors.  `idField` embeds
the mutable sensor-id field written by `model.id(i)` (source line 143);
`obs` gives the pure observation behaviour `model.observation(x, w)` as a
function of the value currently held by the id field. -/
structure LocalModel (dx dq dy : ℕ) where
  idField : ℕ
  obs : ℕ → Vec dx → Vec dq → Vec dy

/-- A Gaussian belief: mean and covariance (spec §3). -/
structure Belief (dx : ℕ) where
  mean : Vec dx
  cov : Mat dx dx

/-- The index of component `s` of sensor `i`'s slice inside the joint
measurement vector: `y.middleRows(i * dy, dy)` (source line 156). -/
def sliceIdx {N dy : ℕ} (i : Fin N) (s : Fin dy) : Fin (N * dy) :=
  ⟨i.val * dy + s.val, by
    calc i.val * dy + s.val < i.val * dy + dy := Nat.add_lt_add_left s.isLt _
      _ = (i.val + 1) * dy := by ring
      _ ≤ N * dy := Nat.mul_le_mul_right dy (Nat.succ_le_of_lt i.isLt)⟩

/-- Sensor `i`'s slice of the joint measurement. -/
def ySlice {N dy : ℕ} (y : Vec (N * dy)) (i : Fin N) : Vec dy :=
  fun s => y (sliceIdx i s)

/-- One iteration of the per-sensor fusion loop (source lines 141–157):
set the shared model's id field to `i`, propagate the state/noise points
through the local observation function, form the per-sensor statistics
and add the information contributions to the accumulators `C` and `D`. -/
def sensorStep {dx dq dy K N : ℕ} (pX : PointSet dx K) (pQ : PointSet dq K)
    (y : Vec (N * dy)) (c_xx_inv : Mat dx dx)
    (acc : LocalModel dx dq dy × (Mat dx dx × Vec dx)) (i : Fin N) :
    LocalModel dx dq dy × (Mat dx dx × Vec dx) :=
  let model := { acc.1 with idField := i.val }
  let h := fun (x : Vec dx) (w : Vec dq) => model.obs model.idField x w
  let p_Y := propagatePoints h pX pQ
  let mu_y := p_Y.mean
  let Y := p_Y.centered
  let X := pX.centered
  let c_yy := covW pX.covWeights Y Y
  let c_xy := covW pX.covWeights X Y
  let c_yx := c_xy.transpose
  let A := c_yx * c_xx_inv
  let innoInv := minv (c_yy - c_yx * c_xx_inv * c_xy)
  let T := A.transpose * innoInv
  (model, (acc.2.1 + T * A, acc.2.2 + T.mulVec (fun s => ySlice y i s - mu_y s)))

/-- The fusion loop of `operator()` run over an arbitrary sensor-index
order (the source's loop order is `List.finRange N`, see `msLoop`),
starting from `C = c_xx_inv`, `D = 0` (source lines 131–157). -/
def msLoopOrder {dx dq dy K N : ℕ} (order : List (Fin N))
    (model0 : LocalModel dx dq dy) (pX : PointSet dx K) (pQ : PointSet dq K)
    (y : Vec (N * dy)) : LocalModel dx dq dy × (Mat dx dx × Vec dx) :=
  let X := pX.centered
  let c_xx := covW pX.covWeights X X
  let c_xx_inv := minv c_xx
  order.foldl (sensorStep pX pQ y c_xx_inv) (model0, (c_xx_inv, 0))

/-- The fusion loop of `operator()` in source order `i = 0, …, N-1`
(source lines 140–157). -/
def msLoop {dx dq dy K N : ℕ} (model0 : LocalModel dx dq dy)
    (pX : PointSet dx K) (pQ : PointSet dq K) (y : Vec (N * dy)) :
    LocalModel dx dq dy × (Mat dx dx × Vec dx) :=
  msLoopOrder (List.finRange N) model0 pX pQ y

/-- The multi-sensor update `operator()` (source lines 117–161): run the
fusion loop, then `posterior.covariance = C⁻¹` and
`posterior.mean = mu_x + posterior.covariance · D` (lines 159–160).
Returns the posterior belief together with the final state of the shared
local observation model. -/
def msUpdate {dx dq dy K N : ℕ} (model0 : LocalModel dx dq dy)
    (pX : PointSet dx K) (pQ : PointSet dq K) (y : Vec (N * dy)) :
    Belief dx × LocalModel dx dq dy :=
  let r := msLoop model0 pX pQ y
  let postCov := minv r.2.1
  (⟨pX.mean + postCov.mulVec r.2.2, postCov⟩, r.1)

/-- The multi-sensor update with the loop run over an arbitrary
sensor-index order, for the permutation-invariance property (spec §8). -/
def msUpdateOrder {dx dq dy K N : ℕ} (order : List (Fin N))
    (model0 : LocalModel dx dq dy) (pX : PointSet dx K) (pQ : PointSet dq K)
    (y : Vec (N * dy)) : Belief dx × LocalModel dx dq dy :=
  let r := msLoopOrder order model0 pX pQ y
  let postCov := minv r.2.1
  (⟨pX.mean + postCov.mulVec r.2.2, postCov⟩, r.1)

/-- The multi-sensor update with the output belief mutation made
explicit: line 159 writes the covariance field of `posterior_belief`,
line 160 then reads that freshly written covariance back and writes the
mean field. -/
def msUpdateWrite {dx dq dy K N : ℕ} (model0 : LocalModel dx dq dy)
    (pX : PointSet dx K) (pQ : PointSet dq K) (y : Vec (N * dy))
    (posterior0 : Belief dx) : Belief dx × LocalModel dx dq dy :=
  let r := msLoop model0 pX pQ y
  let b1 := { posterior0 with cov := minv r.2.1 }
  let b2 := { b1 with mean := pX.mean + b1.cov.mulVec r.2.2 }
  (b2, r.1)

/-- The state sigma-point auto-covariance `c_xx = cov(X, X)`
(source line 133). -/
def stateAutoCov {dx K : ℕ} (pX : PointSet dx K) : Mat dx dx :=
  covW pX.covWeights pX.centered pX.centered

/-- The observation point set of sensor `i`: the state and noise points
propagated through the local observation function bound to sensor id `i`
(source lines 143–144, spec §4.4 step 4a). -/
def pYof {dx dq dy K : ℕ} (model0 : LocalModel dx dq dy) (pX : PointSet dx K)
    (pQ : PointSet dq K) (i : ℕ) : PointSet dy K :=
  propagatePoints (model0.obs i) pX pQ

/-- The state–observation cross covariance `c_xy = cov(X, Y)`
(source line 149). -/
def crossCov {dx dy K : ℕ} (pX : PointSet dx K) (pY : PointSet dy K) : Mat dx dy :=
  covW pX.covWeights pX.centered pY.centered

/-- The observation auto-covariance `c_yy = cov(Y, Y)` (source line 148). -/
def obsAutoCov {dx dy K : ℕ} (pX : PointSet dx K) (pY : PointSet dy K) : Mat dy dy :=
  covW pX.covWeights pY.centered pY.centered

/-- The per-sensor regression coefficient `A_i = c_yx · c_xx⁻¹`
(source line 151, spec §4.4 step 4c). -/
def sensorA {dx dy K : ℕ} (pX : PointSet dx K) (pY : PointSet dy K) : Mat dy dx :=
  (crossCov pX pY).transpose * minv (stateAutoCov pX)

/-- The per-sensor innovation covariance
`c_yy − c_yx · c_xx⁻¹ · c_xy` (source line 152, spec §4.4 step 4d). -/
def sensorInno {dx dy K : ℕ} (pX : PointSet dx K) (pY : PointSet dy K) : Mat dy dy :=
  obsAutoCov pX pY -
    (crossCov pX pY).transpose * minv (stateAutoCov pX) * crossCov pX pY

/-- The per-sensor gain `T_i = A_iᵀ · innovation⁻¹`
(source line 153, spec §4.4 step 4e). -/
def sensorT {dx dy K : ℕ} (pX : PointSet dx K) (pY : PointSet dy K) : Mat dx dy :=
  (sensorA pX pY).transpose * minv (sensorInno pX pY)

/-- Sensor `i`'s additive contribution `T_i · A_i` to the information
matrix (spec §4.4 step 4f). -/
def contribC {dx dy K : ℕ} (pX : PointSet dx K) (pY : PointSet dy K) : Mat dx dx :=
  sensorT pX pY * sensorA pX pY

/-- Sensor `i`'s additive contribution `T_i · (y_i − mean_y)` to the
information vector (spec §4.4 step 4f). -/
def contribD {dx dy K : ℕ} (pX : PointSet dx K) (pY : PointSet dy K)
    (yi : Vec dy) : Vec dx :=
  (sensorT pX pY).mulVec (yi - pY.mean)

/-- The accumulated information matrix in closed form:
`C = c_xx⁻¹ + Σ_i T_i · A_i` (spec §4.4 steps 3 and 4f). -/
def infoMatrix {dx dq dy K : ℕ} (N : ℕ) (model0 : LocalModel dx dq dy)
    (pX : PointSet dx K) (pQ : PointSet dq K) : Mat dx dx :=
  minv (stateAutoCov pX) + ∑ i : Fin N, contribC pX (pYof model0 pX pQ i.val)

/-- The accumulated information vector in closed form:
`D = Σ_i T_i · (y_i − mean_y)` (spec §4.4 steps 3 and 4f). -/
def infoVector {dx dq dy K N : ℕ} (model0 : LocalModel dx dq dy)
    (pX : PointSet dx K) (pQ : PointSet dq K) (y : Vec (N * dy)) : Vec dx :=
  ∑ i : Fin N, contribD pX (pYof model0 pX pQ i.val) (ySlice y i)

/-- Symmetric positive-definite rational matrices. -/
def IsPosDefM {n : ℕ} (A : Mat n n) : Prop :=
  A.transpose = A ∧ ∀ v : Vec n, v ≠ 0 → 0 < Matrix.dotProduct v (A.mulVec v)

/-- Symmetric positive-semidefinite rational matrices. -/
def IsPosSemidefM {n : ℕ} (A : Mat n n) : Prop :=
  A.transpose = A ∧ ∀ v : Vec n, 0 ≤ Matrix.dotProduct v (A.mulVec v)

/-- Scalar (`1 × 1`) specialisation of the state auto-covariance. -/
def sCxx {K : ℕ} (pX : PointSet 1 K) : ℚ :=
  ∑ j, pX.centered 0 j * pX.covWeights j * pX.centered 0 j

/-- Scalar cross covariance. -/
def sCxy {K : ℕ} (pX : PointSet 1 K) (pY : PointSet 1 K) : ℚ :=
  ∑ j, pX.centered 0 j * pX.covWeights j * pY.centered 0 j

/-- Scalar observation auto-covariance. -/
def sCyy {K : ℕ} (pX : PointSet 1 K) (pY : PointSet 1 K) : ℚ :=
  ∑ j, pY.centered 0 j * pX.covWeights j * pY.centered 0 j

/-- Scalar innovation covariance. -/
def sInno {K : ℕ} (pX : PointSet 1 K) (pY : PointSet 1 K) : ℚ :=
  sCyy pX pY - sCxy pX pY * (sCxx pX)⁻¹ * sCxy pX pY

/-- Scalar per-sensor contribution to the information matrix. -/
def sContribC {K : ℕ} (pX : PointSet 1 K) (pY : PointSet 1 K) : ℚ :=
  sCxy pX pY * (sCxx pX)⁻¹ * (sInno pX pY)⁻¹ * (sCxy pX pY * (sCxx pX)⁻¹)

/-- Scalar per-sensor contribution to the information vector. -/
def sContribD {K : ℕ} (pX : PointSet 1 K) (pY : PointSet 1 K) (yi : ℚ) : ℚ :=
  sCxy pX pY * (sCxx pX)⁻¹ * (sInno pX pY)⁻¹ * (yi - pY.mean 0)

/-- Modelled from the spec: the weight vector of the unscented rule over
augmented dimension `n = 2` with spread parameter `γ` (spec §4.2: weights
are rule parameters; both weight vectors sum to 1, spec §3). -/
def utWeights (γ : ℚ) : Vec 5 :=
  ![1 - 2 / γ ^ 2, 1 / (2 * γ ^ 2), 1 / (2 * γ ^ 2), 1 / (2 * γ ^ 2), 1 / (2 * γ ^ 2)]

/-- Modelled from the spec: `transform_to_points` (spec §4.2) for a scalar
state and a scalar noise: the joint Gaussian over `(x, q)` has mean
`(x0, q0)` and covariance `diag(s², r²)`, whose externally supplied
matrix square root (spec §6) is `diag(s, r)`; the `2·2+1 = 5` joint sigma
points `(x0,q0)`, `(x0±γs, q0)`, `(x0, q0±γr)` are split back into a
state point set and a noise point set carrying the same weights. -/
def scalarTransform (γ x0 s q0 r : ℚ) : PointSet 1 5 × PointSet 1 5 :=
  (⟨fun _ => ![x0, x0 + γ * s, x0 - γ * s, x0, x0], utWeights γ, utWeights γ⟩,
   ⟨fun _ => ![q0, q0, q0, q0 + γ * r, q0 - γ * r], utWeights γ, utWeights γ⟩)

/-- A scalar local observation behaviour lifted to vectors of dimension 1. -/
def sObs (f : ℕ → ℚ → ℚ → ℚ) : ℕ → Vec 1 → Vec 1 → Vec 1 :=
  fun i x w _ => f i (x 0) (w 0)

/-- The identity observation `y_i = x + w_i` of the spec's concrete
scenario (spec §8), identical for every sensor id. -/
def identityObs : ℕ → Vec 1 → Vec 1 → Vec 1 :=
  sObs (fun _ x w => x + w)

/-- A Gaussian distribution given by mean and covariance (spec §6,
noise distribution interface). -/
structure GaussianDistr (d : ℕ) where
  mean : Vec d
  cov : Mat d d

/-- The member fields of `MultiSensorSigmaPointUpdatePolicy` (source
lines 188–192): the scratch point sets `p_X`, `p_Q`, `p_Y` and the
local-sensor noise distribution `noise_distr_`. -/
structure PolicyMembers (dx dq dy K : ℕ) where
  pX : PointSet dx K
  pQ : PointSet dq K
  pY : PointSet dy K
  noiseDistr : GaussianDistr dq

/-- `operator()` including its first statement (source line 123): the
state and noise point sets are produced by
`quadrature.transform_to_points(prior_belief, noise_distr_, p_X, p_Q)`,
where `noise_distr_` is the policy's member — the call itself receives
only the joint model, the quadrature (`tf`), the prior belief and the
joint measurement. -/
def policyUpdate {dx dq dy K N : ℕ}
    (tf : Belief dx → GaussianDistr dq → PointSet dx K × PointSet dq K)
    (s : PolicyMembers dx dq dy K) (model0 : LocalModel dx dq dy)
    (prior : Belief dx) (y : Vec (N * dy)) : Belief dx × LocalModel dx dq dy :=
  let pq := tf prior s.noiseDistr
  msUpdate model0 pq.1 pq.2 y

/-- Rational square root helper for the externally supplied Cholesky
factor (spec §6): exact whenever numerator and denominator are perfect
squares, which holds on every input used here. -/
def ratSqrt (q : ℚ) : ℚ := (Nat.sqrt q.num.toNat : ℚ) / (Nat.sqrt q.den : ℚ)

/-- Modelled from the spec: the scalar transform as a function of the
prior belief and the noise distribution (spec §4.2), with spread
parameter `γ` and the Cholesky factors obtained by exact square roots. -/
def scalarTransformB (γ : ℚ) (prior : Belief 1) (nd : GaussianDistr 1) :
    PointSet 1 5 × PointSet 1 5 :=
  scalarTransform γ (prior.mean 0) (ratSqrt (prior.cov 0 0)) (nd.mean 0)
    (ratSqrt (nd.cov 0 0))

/-- Width of C++ `size_t` on the target platform. -/
def SIZET : ℕ := 2 ^ 64

/-- The embedding of `FactorizedIIDObservationModel<ObsrvModel, Factors>`:
the compile-time factor count `Factors`, the runtime dimensions of the
wrapped local model, and the `size_t` member `factors_` (source
lines 164–166). -/
structure FactorizedIIDObservationModel where
  Factors : ℕ
  localObsrvDim : ℕ
  localStateDim : ℕ
  localNoiseDim : ℕ
  factors_ : ℕ

/-- The constructor (source lines 112–117): it stores the shared local
model and converts the `int` argument `factors` to the `size_t` member
`factors_`; no validation is performed. -/
def mkFactorizedIID (Factors localObsrvDim localStateDim localNoiseDim : ℕ)
    (factors : ℤ) : FactorizedIIDObservationModel :=
  ⟨Factors, localObsrvDim, localStateDim, localNoiseDim,
   (factors % (SIZET : ℤ)).toNat⟩

/-- `observation_dimension()` (source lines 143–146), with `size_t`
arithmetic. -/
def FactorizedIIDObservationModel.observation_dimension
    (m : FactorizedIIDObservationModel) : ℕ :=
  m.localObsrvDim * m.factors_ % SIZET

/-- `state_dimension()` (source lines 148–151). -/
def FactorizedIIDObservationModel.state_dimension
    (m : FactorizedIIDObservationModel) : ℕ :=
  m.localStateDim * m.factors_ % SIZET

/-- `noise_dimension()` (source lines 153–156). -/
def FactorizedIIDObservationModel.noise_dimension
    (m : FactorizedIIDObservationModel) : ℕ :=
  m.localNoiseDim * m.factors_ % SIZET

/-- The number of rows of the aggregate `State` type declared in
`Traits` (source lines 78–82): the local state row count times the
template parameter `Factors`. -/
def FactorizedIIDObservationModel.stateTypeRows
    (m : FactorizedIIDObservationModel) : ℕ :=
  m.localStateDim * m.Factors

/-- The number of rows of the aggregate `Noise` type declared in
`Traits` (source lines 72–76): it is built from
`FactorObservation::RowsAtCompileTime`, i.e. the local model's
observation row count, times `Factors`. -/
def FactorizedIIDObservationModel.noiseTypeRows
    (m : FactorizedIIDObservationModel) : ℕ :=
  m.localObsrvDim * m.Factors

/-- The rows read by iteration `i` of `predict_observation` (source
lines 131–138): rows `[i·state_dim, (i+1)·state_dim)` of `state` and
rows `[i·noise_dim, (i+1)·noise_dim)` of `noise`. -/
def predictReadsInBounds (m : FactorizedIIDObservationModel) : Prop :=
  ∀ i < m.factors_,
    (i + 1) * m.localStateDim ≤ m.stateTypeRows ∧
    (i + 1) * m.localNoiseDim ≤ m.noiseTypeRows

instance (m : FactorizedIIDObservationModel) : Decidable (predictReadsInBounds m) :=
  Nat.decidableBallLT _ _

/-- Concrete single-point point set used to instantiate general theorems. -/
def onePt : PointSet 1 1 := ⟨fun _ _ => 0, fun _ => 1, fun _ => 1⟩

/-- A local model whose observation behaviour is the identity observation
for every sensor id, with initial id field `id0`. -/
def idModel (id0 : ℕ) : LocalModel 1 1 1 := ⟨id0, identityObs⟩

/-- A nonlinear scalar observation behaviour given by a value table on
the five sigma points of `scalarTransform 1 0 1 0 1`. -/
def tableObs : ℕ → Vec 1 → Vec 1 → Vec 1 :=
  sObs (fun _ x w =>
    if x = 1 then 5 else if x = -1 then 1 else
    if w = 1 then 1 / 2 else if w = -1 then 1 / 2 else 7 / 2)

/-- A local model with the nonlinear table observation. -/
def tbModel : LocalModel 1 1 1 := ⟨0, tableObs⟩

end FL

namespace FL

theorem minv_eq_inv {n : ℕ} (A : Mat n n) : minv A = A⁻¹ := by
  rw [Matrix.inv_def, minv, Ring.inverse_eq_inv]

theorem sensorStep_eq {dx dq dy K N : ℕ} (pX : PointSet dx K) (pQ : PointSet dq K)
    (y : Vec (N * dy)) (model0 m : LocalModel dx dq dy) (hm : m.obs = model0.obs)
    (C : Mat dx dx) (D : Vec dx) (i : Fin N) :
    sensorStep pX pQ y (minv (stateAutoCov pX)) (m, (C, D)) i =
      ({ m with idField := i.val },
       (C + contribC pX (pYof model0 pX pQ i.val),
        D + contribD pX (pYof model0 pX pQ i.val) (ySlice y i))) := by
  simp only [sensorStep, contribC, contribD, sensorT, sensorA, sensorInno,
    crossCov, obsAutoCov, stateAutoCov, pYof, hm]
  rfl

theorem loop_eq {dx dq dy K N : ℕ} (pX : PointSet dx K) (pQ : PointSet dq K)
    (y : Vec (N * dy)) (model0 : LocalModel dx dq dy) (l : List (Fin N)) :
    ∀ (m : LocalModel dx dq dy), m.obs = model0.obs → ∀ (C : Mat dx dx) (D : Vec dx),
    l.foldl (sensorStep pX pQ y (minv (stateAutoCov pX))) (m, (C, D)) =
      (l.foldl (fun mm i => { mm with idField := i.val }) m,
       (C + (l.map (fun i => contribC pX (pYof model0 pX pQ i.val))).sum,
        D + (l.map (fun i =>
              contribD pX (pYof model0 pX pQ i.val) (ySlice y i))).sum)) := by
  induction l with
  | nil => intro m hm C D; simp
  | cons i t ih =>
    intro m hm C D
    rw [List.foldl_cons, sensorStep_eq pX pQ y model0 m hm C D i,
      ih { m with idField := i.val } hm]
    simp [add_assoc]

theorem msLoopOrder_eq {dx dq dy K N : ℕ} (order : List (Fin N))
    (model0 : LocalModel dx dq dy) (pX : PointSet dx K) (pQ : PointSet dq K)
    (y : Vec (N * dy)) :
    msLoopOrder order model0 pX pQ y =
      (order.foldl (fun mm i => { mm with idField := i.val }) model0,
       (minv (stateAutoCov pX) +
          (order.map (fun i => contribC pX (pYof model0 pX pQ i.val))).sum,
        (order.map (fun i =>
            contribD pX (pYof model0 pX pQ i.val) (ySlice y i))).sum)) := by
  show order.foldl (sensorStep pX pQ y (minv (stateAutoCov pX)))
      (model0, (minv (stateAutoCov pX), 0)) = _
  rw [loop_eq pX pQ y model0 order model0 rfl, zero_add]

theorem msUpdate_belief_eq {dx dq dy K N : ℕ} (model0 : LocalModel dx dq dy)
    (pX : PointSet dx K) (pQ : PointSet dq K) (y : Vec (N * dy)) :
    (msUpdate model0 pX pQ y).1 =
      ⟨pX.mean + (minv (infoMatrix N model0 pX pQ)).mulVec
          (infoVector model0 pX pQ y),
       minv (infoMatrix N model0 pX pQ)⟩ := by
  show ((fun r => ((⟨pX.mean + (minv r.2.1).mulVec r.2.2, minv r.2.1⟩ : Belief dx), r.1))
      (msLoop model0 pX pQ y)).1 = _
  rw [msLoop, msLoopOrder_eq]
  simp only [infoMatrix, infoVector, Fin.sum_univ_def]

theorem setId_obs {dx dq dy N : ℕ} (l : List (Fin N)) (m : LocalModel dx dq dy) :
    (l.foldl (fun mm i => { mm with idField := i.val }) m).obs = m.obs := by
  induction l generalizing m with
  | nil => rfl
  | cons i t ih => rw [List.foldl_cons]; exact ih _

theorem setId_finRange {dx dq dy : ℕ} (N : ℕ) (m : LocalModel dx dq dy) :
    (List.finRange (N + 1)).foldl (fun mm i => { mm with idField := i.val }) m =
      ⟨N, m.obs⟩ := by
  rw [List.finRange_succ_last, List.foldl_append, List.foldl_cons, List.foldl_nil]
  show (⟨(Fin.last N).val, _⟩ : LocalModel dx dq dy) = _
  rw [Fin.val_last, setId_obs]

theorem msUpdate_model_eq {dx dq dy K : ℕ} (N : ℕ) (model0 : LocalModel dx dq dy)
    (pX : PointSet dx K) (pQ : PointSet dq K) (y : Vec ((N + 1) * dy)) :
    (msUpdate model0 pX pQ y).2 = ⟨N, model0.obs⟩ := by
  show ((fun r => ((⟨pX.mean + (minv r.2.1).mulVec r.2.2, minv r.2.1⟩ : Belief dx), r.1))
      (msLoop model0 pX pQ y)).2 = _
  rw [msLoop, msLoopOrder_eq, setId_finRange]

theorem covW_apply {K da db : ℕ} (w : Vec K) (a : Mat da K) (b : Mat db K)
    (i : Fin da) (k : Fin db) :
    covW w a b i k = ∑ j, a i j * w j * b k j := by
  simp [covW, Matrix.mul_apply, Matrix.diagonal_apply, mul_ite, mul_zero,
    ite_mul, zero_mul, Finset.sum_ite_eq', Finset.mem_univ]

theorem m1_mul (A B : Mat 1 1) : (A * B) 0 0 = A 0 0 * B 0 0 := by
  simp [Matrix.mul_apply]

theorem m1_minv (A : Mat 1 1) : minv A 0 0 = (A 0 0)⁻¹ := by
  simp [minv, Matrix.det_fin_one, Matrix.adjugate_fin_one]

theorem stateAutoCov_one {K : ℕ} (pX : PointSet 1 K) :
    stateAutoCov pX 0 0 = sCxx pX := by
  rw [stateAutoCov, covW_apply, sCxx]

theorem crossCov_one {K : ℕ} (pX pY : PointSet 1 K) :
    crossCov pX pY 0 0 = sCxy pX pY := by
  rw [crossCov, covW_apply, sCxy]

theorem obsAutoCov_one {K : ℕ} (pX pY : PointSet 1 K) :
    obsAutoCov pX pY 0 0 = sCyy pX pY := by
  rw [obsAutoCov, covW_apply, sCyy]

theorem sensorA_one {K : ℕ} (pX pY : PointSet 1 K) :
    sensorA pX pY 0 0 = sCxy pX pY * (sCxx pX)⁻¹ := by
  rw [sensorA, m1_mul, m1_minv, Matrix.transpose_apply, crossCov_one, stateAutoCov_one]

theorem sensorInno_one {K : ℕ} (pX pY : PointSet 1 K) :
    sensorInno pX pY 0 0 = sInno pX pY := by
  rw [sensorInno, Matrix.sub_apply, m1_mul, m1_mul, m1_minv, Matrix.transpose_apply,
    obsAutoCov_one, crossCov_one, stateAutoCov_one, sInno]

theorem sensorT_one {K : ℕ} (pX pY : PointSet 1 K) :
    sensorT pX pY 0 0 = sCxy pX pY * (sCxx pX)⁻¹ * (sInno pX pY)⁻¹ := by
  rw [sensorT, m1_mul, m1_minv, Matrix.transpose_apply, sensorA_one, sensorInno_one]

theorem contribC_one {K : ℕ} (pX pY : PointSet 1 K) :
    contribC pX pY 0 0 = sContribC pX pY := by
  rw [contribC, m1_mul, sensorT_one, sensorA_one, sContribC]

theorem contribD_one {K : ℕ} (pX pY : PointSet 1 K) (yi : Vec 1) :
    contribD pX pY yi 0 = sContribD pX pY (yi 0) := by
  rw [contribD, sContribD, ← sensorT_one]
  simp [Matrix.mulVec, Matrix.dotProduct]

theorem msUpdate_cov_one {K N : ℕ} (model0 : LocalModel 1 1 1)
    (pX pQ : PointSet 1 K) (y : Vec (N * 1)) :
    (msUpdate model0 pX pQ y).1.cov 0 0 =
      ((sCxx pX)⁻¹ + ∑ i : Fin N, sContribC pX (pYof model0 pX pQ i.val))⁻¹ := by
  rw [msUpdate_belief_eq]
  show minv (infoMatrix N model0 pX pQ) 0 0 = _
  rw [m1_minv, infoMatrix, Matrix.add_apply, m1_minv, stateAutoCov_one]
  simp only [Matrix.sum_apply, contribC_one]

theorem msUpdate_mean_one {K N : ℕ} (model0 : LocalModel 1 1 1)
    (pX pQ : PointSet 1 K) (y : Vec (N * 1)) :
    (msUpdate model0 pX pQ y).1.mean 0 =
      pX.mean 0 +
        ((sCxx pX)⁻¹ + ∑ i : Fin N, sContribC pX (pYof model0 pX pQ i.val))⁻¹ *
          ∑ i : Fin N, sContribD pX (pYof model0 pX pQ i.val) (y (sliceIdx i 0)) := by
  rw [msUpdate_belief_eq]
  show (pX.mean + (minv (infoMatrix N model0 pX pQ)).mulVec
      (infoVector model0 pX pQ y)) 0 = _
  rw [Pi.add_apply]
  congr 1
  rw [Matrix.mulVec, Matrix.dotProduct, Fin.sum_univ_one, m1_minv, infoMatrix,
    Matrix.add_apply, m1_minv, stateAutoCov_one]
  have hC : (∑ i : Fin N, contribC pX (pYof model0 pX pQ i.val)) 0 0 =
      ∑ i : Fin N, sContribC pX (pYof model0 pX pQ i.val) := by
    rw [Matrix.sum_apply]
    exact Finset.sum_congr rfl fun i _ => contribC_one _ _
  have hD : infoVector model0 pX pQ y 0 =
      ∑ i : Fin N, sContribD pX (pYof model0 pX pQ i.val) (y (sliceIdx i 0)) := by
    rw [infoVector, Finset.sum_apply]
    exact Finset.sum_congr rfl fun i _ => contribD_one _ _ _
  rw [hC, hD]

theorem sT_state_mean (γ x0 s q0 r : ℚ) (hγ : γ ≠ 0) :
    (scalarTransform γ x0 s q0 r).1.mean 0 = x0 := by
  simp only [scalarTransform, PointSet.mean, utWeights, Fin.sum_univ_five]
  simp only [Matrix.cons_val_zero, Matrix.cons_val_one, Matrix.head_cons,
    Matrix.cons_val_two, Matrix.tail_cons, Matrix.cons_val_three,
    Matrix.cons_val_four]
  field_simp
  ring

theorem sT_state_centered (γ x0 s q0 r : ℚ) (hγ : γ ≠ 0) (j : Fin 5) :
    (scalarTransform γ x0 s q0 r).1.centered 0 j =
      ![0, γ * s, -(γ * s), 0, 0] j := by
  rw [PointSet.centered, sT_state_mean γ x0 s q0 r hγ]
  fin_cases j <;> simp [scalarTransform]

theorem sT_cxx (γ x0 s q0 r : ℚ) (hγ : γ ≠ 0) :
    sCxx (scalarTransform γ x0 s q0 r).1 = s ^ 2 := by
  have hc := sT_state_centered γ x0 s q0 r hγ
  rw [sCxx, Fin.sum_univ_five, hc 0, hc 1, hc 2, hc 3, hc 4]
  show 0 * utWeights γ 0 * 0 + γ * s * utWeights γ 1 * (γ * s) +
      -(γ * s) * utWeights γ 2 * -(γ * s) + 0 * utWeights γ 3 * 0 +
      0 * utWeights γ 4 * 0 = s ^ 2
  simp only [utWeights, Matrix.cons_val_zero, Matrix.cons_val_one, Matrix.head_cons,
    Matrix.cons_val_two, Matrix.tail_cons, Matrix.cons_val_three,
    Matrix.cons_val_four]
  field_simp
  ring

theorem sT_idY_points (γ x0 s q0 r : ℚ) (id0 i : ℕ) (j : Fin 5) :
    (pYof (idModel id0) (scalarTransform γ x0 s q0 r).1
      (scalarTransform γ x0 s q0 r).2 i).points 0 j =
      ![x0 + q0, x0 + γ * s + q0, x0 - γ * s + q0, x0 + (q0 + γ * r),
        x0 + (q0 - γ * r)] j := by
  fin_cases j <;>
    simp [pYof, propagatePoints, idModel, identityObs, sObs, scalarTransform]

theorem sT_idY_mean (γ x0 s q0 r : ℚ) (hγ : γ ≠ 0) (id0 i : ℕ) :
    (pYof (idModel id0) (scalarTransform γ x0 s q0 r).1
      (scalarTransform γ x0 s q0 r).2 i).mean 0 = x0 + q0 := by
  have hp := sT_idY_points γ x0 s q0 r id0 i
  have hw : (pYof (idModel id0) (scalarTransform γ x0 s q0 r).1
      (scalarTransform γ x0 s q0 r).2 i).meanWeights = utWeights γ := rfl
  rw [PointSet.mean, Fin.sum_univ_five, hw, hp 0, hp 1, hp 2, hp 3, hp 4]
  simp only [utWeights, Matrix.cons_val_zero, Matrix.cons_val_one, Matrix.head_cons,
    Matrix.cons_val_two, Matrix.tail_cons, Matrix.cons_val_three,
    Matrix.cons_val_four]
  field_simp
  ring

theorem sT_idY_centered (γ x0 s q0 r : ℚ) (hγ : γ ≠ 0) (id0 i : ℕ) (j : Fin 5) :
    (pYof (idModel id0) (scalarTransform γ x0 s q0 r).1
      (scalarTransform γ x0 s q0 r).2 i).centered 0 j =
      ![0, γ * s, -(γ * s), γ * r, -(γ * r)] j := by
  rw [PointSet.centered, sT_idY_mean γ x0 s q0 r hγ id0 i, sT_idY_points]
  fin_cases j <;> simp

theorem sT_idY_cxy (γ x0 s q0 r : ℚ) (hγ : γ ≠ 0) (id0 i : ℕ) :
    sCxy (scalarTransform γ x0 s q0 r).1
      (pYof (idModel id0) (scalarTransform γ x0 s q0 r).1
        (scalarTransform γ x0 s q0 r).2 i) = s ^ 2 := by
  have hx := sT_state_centered γ x0 s q0 r hγ
  have hy := sT_idY_centered γ x0 s q0 r hγ id0 i
  rw [sCxy, Fin.sum_univ_five, hx 0, hx 1, hx 2, hx 3, hx 4,
    hy 0, hy 1, hy 2, hy 3, hy 4]
  show 0 * utWeights γ 0 * 0 + γ * s * utWeights γ 1 * (γ * s) +
      -(γ * s) * utWeights γ 2 * -(γ * s) + 0 * utWeights γ 3 * (γ * r) +
      0 * utWeights γ 4 * -(γ * r) = s ^ 2
  simp only [utWeights, Matrix.cons_val_zero, Matrix.cons_val_one, Matrix.head_cons,
    Matrix.cons_val_two, Matrix.tail_cons, Matrix.cons_val_three,
    Matrix.cons_val_four]
  field_simp
  ring

theorem sT_idY_cyy (γ x0 s q0 r : ℚ) (hγ : γ ≠ 0) (id0 i : ℕ) :
    sCyy (scalarTransform γ x0 s q0 r).1
      (pYof (idModel id0) (scalarTransform γ x0 s q0 r).1
        (scalarTransform γ x0 s q0 r).2 i) = s ^ 2 + r ^ 2 := by
  have hy := sT_idY_centered γ x0 s q0 r hγ id0 i
  rw [sCyy, Fin.sum_univ_five, hy 0, hy 1, hy 2, hy 3, hy 4]
  show 0 * utWeights γ 0 * 0 + γ * s * utWeights γ 1 * (γ * s) +
      -(γ * s) * utWeights γ 2 * -(γ * s) + γ * r * utWeights γ 3 * (γ * r) +
      -(γ * r) * utWeights γ 4 * -(γ * r) = s ^ 2 + r ^ 2
  simp only [utWeights, Matrix.cons_val_zero, Matrix.cons_val_one, Matrix.head_cons,
    Matrix.cons_val_two, Matrix.tail_cons, Matrix.cons_val_three,
    Matrix.cons_val_four]
  field_simp
  ring

theorem sT_idY_contribC (γ x0 s q0 r : ℚ) (hγ : γ ≠ 0) (hs : s ≠ 0) (hr : r ≠ 0)
    (id0 i : ℕ) :
    sContribC (scalarTransform γ x0 s q0 r).1
      (pYof (idModel id0) (scalarTransform γ x0 s q0 r).1
        (scalarTransform γ x0 s q0 r).2 i) = (r ^ 2)⁻¹ := by
  rw [sContribC, sInno, sT_idY_cxy γ x0 s q0 r hγ id0 i,
    sT_idY_cyy γ x0 s q0 r hγ id0 i, sT_cxx γ x0 s q0 r hγ]
  field_simp

theorem sT_idY_contribD (γ x0 s q0 r : ℚ) (hγ : γ ≠ 0) (hs : s ≠ 0) (hr : r ≠ 0)
    (id0 i : ℕ) (yi : ℚ) :
    sContribD (scalarTransform γ x0 s q0 r).1
      (pYof (idModel id0) (scalarTransform γ x0 s q0 r).1
        (scalarTransform γ x0 s q0 r).2 i) yi = (yi - (x0 + q0)) / r ^ 2 := by
  rw [sContribD, sInno, sT_idY_cxy γ x0 s q0 r hγ id0 i,
    sT_idY_cyy γ x0 s q0 r hγ id0 i, sT_cxx γ x0 s q0 r hγ,
    sT_idY_mean γ x0 s q0 r hγ id0 i]
  field_simp

/-- C1: For every factorized observation model with `N ≥ 1` sensors (local
behaviour `model0`), transformed prior state/noise point sets and joint
measurement of length `N · dy`, the multi-sensor update computes the
posterior exactly by information-form accumulation: `C` is initialised to
`c_xx⁻¹` and `D` to zero; sensor `i` adds `T_i · A_i` to `C` and
`T_i · (y_i − mean_y)` to `D`, `y_i` being the `i`-th contiguous slice of
the joint measurement; the posterior covariance is `C⁻¹` and the
posterior mean is `mean_x + C⁻¹ · D`. -/
theorem C1_info_form_posterior {dx dq dy K N : ℕ} (hN : 1 ≤ N)
    (model0 : LocalModel dx dq dy) (pX : PointSet dx K) (pQ : PointSet dq K)
    (y : Vec (N * dy)) :
    (msUpdate model0 pX pQ y).1.cov = minv (infoMatrix N model0 pX pQ) ∧
    (msUpdate model0 pX pQ y).1.mean =
      pX.mean + (minv (infoMatrix N model0 pX pQ)).mulVec
        (infoVector model0 pX pQ y) := by
  rw [msUpdate_belief_eq]
  exact ⟨rfl, rfl⟩

/-- C1 witness: the theorem applied to a concrete single-sensor instance. -/
theorem C1_info_form_posterior_witness :
    1 ≤ 1 ∧
    ((msUpdate (N := 1) (idModel 0) onePt onePt (fun _ => 0)).1.cov =
        minv (infoMatrix 1 (idModel 0) onePt onePt) ∧
      (msUpdate (N := 1) (idModel 0) onePt onePt (fun _ => 0)).1.mean =
        onePt.mean + (minv (infoMatrix 1 (idModel 0) onePt onePt)).mulVec
          (infoVector (N := 1) (idModel 0) onePt onePt (fun _ => 0))) :=
  ⟨le_refl 1,
   C1_info_form_posterior (le_refl 1) (idModel 0) onePt onePt (fun _ => 0)⟩

theorem scalarScenarioFormulas (γ x0 s r y : ℚ) (N id0 : ℕ) (P0 R : ℚ)
    (hP : P0 = s ^ 2) (hR : R = r ^ 2) (hP0 : 0 < P0) (hR0 : 0 < R)
    (hγ : γ ≠ 0) :
    (msUpdate (N := N) (idModel id0) (scalarTransform γ x0 s 0 r).1
        (scalarTransform γ x0 s 0 r).2 (fun _ => y)).1.cov 0 0 =
      1 / (1 / P0 + N / R) ∧
    (msUpdate (N := N) (idModel id0) (scalarTransform γ x0 s 0 r).1
        (scalarTransform γ x0 s 0 r).2 (fun _ => y)).1.mean 0 =
      (1 / (1 / P0 + N / R)) * (x0 / P0 + N * y / R) := by
  have hs : s ≠ 0 := by
    intro h
    rw [hP, h] at hP0
    norm_num at hP0
  have hr : r ≠ 0 := by
    intro h
    rw [hR, h] at hR0
    norm_num at hR0
  have hs2 : (0 : ℚ) < s ^ 2 := pow_two_pos_of_ne_zero hs
  have hr2 : (0 : ℚ) < r ^ 2 := pow_two_pos_of_ne_zero hr
  have hCpos : (0 : ℚ) < (s ^ 2)⁻¹ + (N : ℚ) * (r ^ 2)⁻¹ := by
    have h1 : (0 : ℚ) < (s ^ 2)⁻¹ := inv_pos.mpr hs2
    have h2 : (0 : ℚ) ≤ (N : ℚ) * (r ^ 2)⁻¹ :=
      mul_nonneg (Nat.cast_nonneg N) (le_of_lt (inv_pos.mpr hr2))
    linarith
  have hsumC : (∑ i : Fin N, sContribC (scalarTransform γ x0 s 0 r).1
      (pYof (idModel id0) (scalarTransform γ x0 s 0 r).1
        (scalarTransform γ x0 s 0 r).2 i.val)) = (N : ℚ) * (r ^ 2)⁻¹ := by
    rw [Finset.sum_congr rfl
      (fun i _ => sT_idY_contribC γ x0 s 0 r hγ hs hr id0 i.val),
      Finset.sum_const, Finset.card_univ, Fintype.card_fin, nsmul_eq_mul]
  constructor
  · rw [msUpdate_cov_one, sT_cxx γ x0 s 0 r hγ, hsumC, hP, hR]
    simp only [one_div, div_eq_mul_inv, one_mul]
  · rw [msUpdate_mean_one, sT_state_mean γ x0 s 0 r hγ, sT_cxx γ x0 s 0 r hγ,
      hsumC]
    have hsumD : (∑ i : Fin N, sContribD (scalarTransform γ x0 s 0 r).1
        (pYof (idModel id0) (scalarTransform γ x0 s 0 r).1
          (scalarTransform γ x0 s 0 r).2 i.val)
        ((fun _ => y : Vec (N * 1)) (sliceIdx i 0))) =
        (N : ℚ) * ((y - x0) / r ^ 2) := by
      rw [Finset.sum_congr rfl (fun i _ => by
        rw [show (fun _ => y : Vec (N * 1)) (sliceIdx i 0) = y from rfl,
          sT_idY_contribD γ x0 s 0 r hγ hs hr id0 i.val y, add_zero]),
        Finset.sum_const, Finset.card_univ, Fintype.card_fin, nsmul_eq_mul]
    rw [hsumD, hP, hR]
    field_simp
    ring

/-- C2: For a scalar state with prior mean `x0` and prior variance
`P0 = s²`, `N` identical sensors with identity observation and noise
variance `R = r²`, and all `N` measurements equal to `y`, the multi-sensor
update returns posterior variance `1/(1/P0 + N/R)` and posterior mean
`P_post · (x0/P0 + N·y/R)`. -/
theorem C2_scalar_scenario (γ x0 s r y : ℚ) (N id0 : ℕ) (P0 R : ℚ)
    (hP : P0 = s ^ 2) (hR : R = r ^ 2) (hP0 : 0 < P0) (hR0 : 0 < R)
    (hγ : γ ≠ 0) :
    (msUpdate (N := N) (idModel id0) (scalarTransform γ x0 s 0 r).1
        (scalarTransform γ x0 s 0 r).2 (fun _ => y)).1.cov 0 0 =
      1 / (1 / P0 + N / R) ∧
    (msUpdate (N := N) (idModel id0) (scalarTransform γ x0 s 0 r).1
        (scalarTransform γ x0 s 0 r).2 (fun _ => y)).1.mean 0 =
      (1 / (1 / P0 + N / R)) * (x0 / P0 + N * y / R) :=
  scalarScenarioFormulas γ x0 s r y N id0 P0 R hP hR hP0 hR0 hγ

/-- C2 witness: `x0 = 0, P0 = 1, R = 1, N = 3, y = 1` gives posterior
variance `1/4` and posterior mean `3/4`. -/
theorem C2_scalar_scenario_witness :
    ((1 : ℚ) = 1 ^ 2 ∧ (1 : ℚ) = 1 ^ 2 ∧ (0 : ℚ) < 1 ∧ (0 : ℚ) < 1 ∧
      (2 : ℚ) ≠ 0) ∧
    (msUpdate (N := 3) (idModel 0) (scalarTransform 2 0 1 0 1).1
        (scalarTransform 2 0 1 0 1).2 (fun _ => 1)).1.cov 0 0 =
      1 / (1 / 1 + (3 : ℕ) / 1) ∧
    (msUpdate (N := 3) (idModel 0) (scalarTransform 2 0 1 0 1).1
        (scalarTransform 2 0 1 0 1).2 (fun _ => 1)).1.mean 0 =
      (1 / (1 / 1 + (3 : ℕ) / 1)) * (0 / 1 + (3 : ℕ) * 1 / 1) :=
  ⟨⟨by norm_num, by norm_num, by norm_num, by norm_num, by norm_num⟩,
   C2_scalar_scenario 2 0 1 1 1 3 0 1 1 (by norm_num) (by norm_num)
     (by norm_num) (by norm_num) (by norm_num)⟩

/-- C5: Running the per-sensor fusion loop with the sensor indices in any
permuted order — each sensor still paired with its own measurement
slice — produces the same posterior mean and covariance, exactly, in the
exact arithmetic of this embedding. -/
theorem C5_permutation_invariance {dx dq dy K N : ℕ} (order : List (Fin N))
    (hperm : order.Perm (List.finRange N)) (model0 : LocalModel dx dq dy)
    (pX : PointSet dx K) (pQ : PointSet dq K) (y : Vec (N * dy)) :
    (msUpdateOrder order model0 pX pQ y).1 = (msUpdate model0 pX pQ y).1 := by
  have hC : (order.map (fun i => contribC pX (pYof model0 pX pQ i.val))).sum =
      ((List.finRange N).map
        (fun i => contribC pX (pYof model0 pX pQ i.val))).sum :=
    (hperm.map _).sum_eq
  have hD : (order.map (fun i =>
      contribD pX (pYof model0 pX pQ i.val) (ySlice y i))).sum =
      ((List.finRange N).map (fun i =>
        contribD pX (pYof model0 pX pQ i.val) (ySlice y i))).sum :=
    (hperm.map _).sum_eq
  show ((fun r => ((⟨pX.mean + (minv r.2.1).mulVec r.2.2, minv r.2.1⟩ : Belief dx), r.1))
      (msLoopOrder order model0 pX pQ y)).1 =
    ((fun r => ((⟨pX.mean + (minv r.2.1).mulVec r.2.2, minv r.2.1⟩ : Belief dx), r.1))
      (msLoop model0 pX pQ y)).1
  rw [msLoop, msLoopOrder_eq, msLoopOrder_eq, hC, hD]

/-- C5 witness: the two-sensor loop run in order `[1, 0]`. -/
theorem C5_permutation_invariance_witness :
    ([1, 0] : List (Fin 2)).Perm (List.finRange 2) ∧
    (msUpdateOrder ([1, 0] : List (Fin 2)) (idModel 0) onePt onePt
        (fun _ => 0)).1 =
      (msUpdate (N := 2) (idModel 0) onePt onePt (fun _ => 0)).1 :=
  ⟨by decide,
   C5_permutation_invariance ([1, 0] : List (Fin 2)) (by decide) (idModel 0)
     onePt onePt (fun _ => 0)⟩

/-- C4: The two belief fields are written together on every call: the
result of `operator()` does not depend on the incoming contents of the
output belief, and at exit both the covariance and the mean field hold
the computed posterior — in particular the belief is never left with
exactly one of the two fields written.  (The source has no failure path:
every call runs to the two writes at lines 159–160, so the "on any
failure" branch of the claim is vacuous.) -/
theorem C4_atomic_belief_write {dx dq dy K N : ℕ} (model0 : LocalModel dx dq dy)
    (pX : PointSet dx K) (pQ : PointSet dq K) (y : Vec (N * dy))
    (b0 b1 : Belief dx) :
    msUpdateWrite model0 pX pQ y b0 = msUpdateWrite model0 pX pQ y b1 ∧
    (msUpdateWrite model0 pX pQ y b0).1 =
      ⟨pX.mean + (minv (infoMatrix N model0 pX pQ)).mulVec
          (infoVector model0 pX pQ y),
       minv (infoMatrix N model0 pX pQ)⟩ := by
  constructor
  · rfl
  · show (msUpdate model0 pX pQ y).1 = _
    exact msUpdate_belief_eq model0 pX pQ y

theorem minv_zero_det {n : ℕ} (A : Mat n n) (h : A.det = 0) : minv A = 0 := by
  rw [minv, h, inv_zero, zero_smul]

theorem msUpdate_singular {dx dq dy K N : ℕ} (hdx : 0 < dx)
    (model0 : LocalModel dx dq dy) (pX : PointSet dx K) (pQ : PointSet dq K)
    (y : Vec (N * dy)) (hsing : (stateAutoCov pX).det = 0) :
    (msUpdate model0 pX pQ y).1 = ⟨pX.mean, 0⟩ := by
  rw [msUpdate_belief_eq]
  have h0 : minv (stateAutoCov pX) = 0 := minv_zero_det _ hsing
  have hA : ∀ i : ℕ, sensorA pX (pYof model0 pX pQ i) = 0 := fun i => by
    rw [sensorA, h0, Matrix.mul_zero]
  have hT : ∀ i : ℕ, sensorT pX (pYof model0 pX pQ i) = 0 := fun i => by
    rw [sensorT, hA, Matrix.transpose_zero, Matrix.zero_mul]
  have hC : infoMatrix N model0 pX pQ = 0 := by
    rw [infoMatrix, h0]
    simp [contribC, hT]
  have hD : infoVector model0 pX pQ y = 0 := by
    rw [infoVector]
    simp [contribD, hT, Matrix.zero_mulVec]
  have hmv : minv (infoMatrix N model0 pX pQ) = 0 := by
    rw [hC]
    exact minv_zero_det _ (Matrix.det_zero ⟨(⟨0, hdx⟩ : Fin dx)⟩)
  rw [hmv, hD, Matrix.zero_mulVec]
  show (⟨pX.mean + 0, 0⟩ : Belief dx) = _
  rw [add_zero]

/-- C3 (amended): the update performs no invertibility check and has no
error path: even when the state auto-covariance `c_xx` is singular, the
call does not report `SingularCovariance` but runs to completion and
writes a posterior belief — with the adjugate-based `.inverse()`
embedding it writes mean `mean_x` and the zero covariance. -/
theorem C3_no_singularity_detection {dx dq dy K N : ℕ} (hdx : 0 < dx)
    (model0 : LocalModel dx dq dy) (pX : PointSet dx K) (pQ : PointSet dq K)
    (y : Vec (N * dy)) (hsing : (stateAutoCov pX).det = 0) :
    (msUpdate model0 pX pQ y).1 = ⟨pX.mean, 0⟩ :=
  msUpdate_singular hdx model0 pX pQ y hsing

/-- C3 witness: a concrete degenerate prior (`s = 0`) on which the update
still produces a posterior belief. -/
theorem C3_no_singularity_detection_witness :
    (0 < 1 ∧ (stateAutoCov (scalarTransform 1 7 0 0 1).1).det = 0) ∧
    (msUpdate (N := 1) (idModel 0) (scalarTransform 1 7 0 0 1).1
        (scalarTransform 1 7 0 0 1).2 (fun _ => 2)).1 =
      ⟨(scalarTransform 1 7 0 0 1).1.mean, 0⟩ := by
  have hdet : (stateAutoCov (scalarTransform 1 7 0 0 1).1).det = 0 := by
    rw [Matrix.det_fin_one, stateAutoCov_one, sT_cxx 1 7 0 0 1 (by norm_num)]
    norm_num
  exact ⟨⟨Nat.one_pos, hdet⟩,
    C3_no_singularity_detection Nat.one_pos (idModel 0) _ _ (fun _ => 2) hdet⟩

/-- C3 counterexample: at a concrete input whose state auto-covariance is
singular the call does not fail: it produces (writes) a posterior belief,
here with mean `7` and covariance `0`, refuting "the call reports the
error instead of producing a posterior belief". -/
theorem C3_no_singularity_detection_cex :
    (stateAutoCov (scalarTransform 1 5 0 0 1).1).det = 0 ∧
    (msUpdate (N := 1) (idModel 0) (scalarTransform 1 5 0 0 1).1
        (scalarTransform 1 5 0 0 1).2 (fun _ => 3)).1 =
      ⟨fun _ => 5, 0⟩ := by
  have hdet : (stateAutoCov (scalarTransform 1 5 0 0 1).1).det = 0 := by
    rw [Matrix.det_fin_one, stateAutoCov_one, sT_cxx 1 5 0 0 1 (by norm_num)]
    norm_num
  have hmean : (scalarTransform 1 5 0 0 1).1.mean = fun _ => 5 := by
    funext i
    fin_cases i
    exact sT_state_mean 1 5 0 0 1 (by norm_num)
  refine ⟨hdet, ?_⟩
  rw [msUpdate_singular Nat.one_pos (idModel 0) _ _ (fun _ => 3) hdet, hmean]

theorem covW_self_symm {d K : ℕ} (w : Vec K) (a : Mat d K) :
    (covW w a a).transpose = covW w a a := by
  rw [covW, Matrix.transpose_mul, Matrix.transpose_mul, Matrix.transpose_transpose,
    Matrix.diagonal_transpose, Matrix.mul_assoc]

theorem IsPosDefM.psd {n : ℕ} {A : Mat n n} (h : IsPosDefM A) : IsPosSemidefM A := by
  refine ⟨h.1, fun v => ?_⟩
  by_cases hv : v = 0
  · subst hv
    simp
  · exact le_of_lt (h.2 v hv)

theorem IsPosSemidefM.add {n : ℕ} {A B : Mat n n} (hA : IsPosSemidefM A)
    (hB : IsPosSemidefM B) : IsPosSemidefM (A + B) := by
  refine ⟨by rw [Matrix.transpose_add, hA.1, hB.1], fun v => ?_⟩
  rw [Matrix.add_mulVec, Matrix.dotProduct_add]
  exact add_nonneg (hA.2 v) (hB.2 v)

theorem isPosSemidefM_zero {n : ℕ} : IsPosSemidefM (0 : Mat n n) := by
  refine ⟨Matrix.transpose_zero, fun v => ?_⟩
  simp

theorem isPosSemidefM_sum {n : ℕ} {ι : Type} (s : Finset ι) (f : ι → Mat n n)
    (h : ∀ i ∈ s, IsPosSemidefM (f i)) : IsPosSemidefM (∑ i ∈ s, f i) :=
  Finset.sum_induction f _ (fun _ _ ha hb => ha.add hb) isPosSemidefM_zero h

theorem isPosSemidefM_conj {n m : ℕ} {S : Mat m m} (hS : IsPosSemidefM S)
    (B : Mat m n) : IsPosSemidefM (B.transpose * S * B) := by
  constructor
  · rw [Matrix.transpose_mul, Matrix.transpose_mul, Matrix.transpose_transpose,
      hS.1, Matrix.mul_assoc]
  · intro v
    rw [← Matrix.mulVec_mulVec, ← Matrix.mulVec_mulVec,
      Matrix.dotProduct_mulVec, Matrix.vecMul_transpose]
    exact hS.2 _

theorem IsPosDefM.add_psd {n : ℕ} {A B : Mat n n} (hA : IsPosDefM A)
    (hB : IsPosSemidefM B) : IsPosDefM (A + B) := by
  refine ⟨by rw [Matrix.transpose_add, hA.1, hB.1], fun v hv => ?_⟩
  rw [Matrix.add_mulVec, Matrix.dotProduct_add]
  exact add_pos_of_pos_of_nonneg (hA.2 v hv) (hB.2 v)

theorem IsPosDefM.det_ne_zero {n : ℕ} {A : Mat n n} (h : IsPosDefM A) :
    A.det ≠ 0 := by
  intro hdet
  obtain ⟨v, hv, hAv⟩ := Matrix.exists_mulVec_eq_zero_iff.mpr hdet
  have hpos := h.2 v hv
  rw [hAv, Matrix.dotProduct_zero] at hpos
  exact lt_irrefl 0 hpos

theorem IsPosDefM.minv {n : ℕ} {A : Mat n n} (h : IsPosDefM A) :
    IsPosDefM (minv A) := by
  have hdet : IsUnit A.det := isUnit_iff_ne_zero.mpr h.det_ne_zero
  rw [minv_eq_inv]
  constructor
  · rw [Matrix.transpose_nonsing_inv, h.1]
  · intro v hv
    have hVw : A.mulVec (A⁻¹.mulVec v) = v := by
      rw [Matrix.mulVec_mulVec, Matrix.mul_nonsing_inv _ hdet, Matrix.one_mulVec]
    have hwne : A⁻¹.mulVec v ≠ 0 := by
      intro h0
      rw [h0, Matrix.mulVec_zero] at hVw
      exact hv hVw.symm
    have hpos := h.2 (A⁻¹.mulVec v) hwne
    calc (0 : ℚ) < Matrix.dotProduct (A⁻¹.mulVec v) (A.mulVec (A⁻¹.mulVec v)) :=
        hpos
      _ = Matrix.dotProduct (A.mulVec (A⁻¹.mulVec v)) (A⁻¹.mulVec v) :=
        Matrix.dotProduct_comm _ _
      _ = Matrix.dotProduct v (A⁻¹.mulVec v) := by rw [hVw]

theorem contribC_conj {dx dy K : ℕ} (pX : PointSet dx K) (pY : PointSet dy K) :
    contribC pX pY =
      (sensorA pX pY).transpose * minv (sensorInno pX pY) * sensorA pX pY := rfl

/-- C6 (amended): given a positive-definite state auto-covariance (the
transform of a positive-definite prior covariance) and positive-definite
per-sensor innovation covariances, the posterior covariance written to
the output belief is symmetric positive-definite; moreover the
auto-covariance `cov(X, X)` is symmetric by construction, one shared
covariance-weight vector being applied to both operands. -/
theorem C6_posterior_spd {dx dq dy K N : ℕ} (model0 : LocalModel dx dq dy)
    (pX : PointSet dx K) (pQ : PointSet dq K) (y : Vec (N * dy))
    (hx : IsPosDefM (stateAutoCov pX))
    (hinno : ∀ i : Fin N, IsPosDefM (sensorInno pX (pYof model0 pX pQ i.val))) :
    (stateAutoCov pX).transpose = stateAutoCov pX ∧
    IsPosDefM ((msUpdate model0 pX pQ y).1.cov) := by
  constructor
  · exact covW_self_symm _ _
  · have hcov : (msUpdate model0 pX pQ y).1.cov =
        FL.minv (infoMatrix N model0 pX pQ) :=
      congrArg Belief.cov (msUpdate_belief_eq model0 pX pQ y)
    rw [hcov]
    refine IsPosDefM.minv ?_
    rw [infoMatrix]
    refine (hx.minv).add_psd (isPosSemidefM_sum _ _ fun i _ => ?_)
    rw [contribC_conj]
    exact isPosSemidefM_conj ((hinno i).minv).psd _

theorem isPosDefM_one_dim (A : Mat 1 1) (h : 0 < A 0 0) : IsPosDefM A := by
  constructor
  · funext i j
    fin_cases i
    fin_cases j
    rfl
  · intro v hv
    have hv0 : v 0 ≠ 0 := by
      intro h0
      exact hv (funext fun i => by fin_cases i; exact h0)
    have hq : Matrix.dotProduct v (A.mulVec v) = A 0 0 * (v 0 * v 0) := by
      simp [Matrix.dotProduct, Matrix.mulVec]
      ring
    rw [hq]
    exact mul_pos h (mul_self_pos.mpr hv0)

/-- C6 witness: a concrete scalar instance with positive-definite state
auto-covariance and innovation covariance. -/
theorem C6_posterior_spd_witness :
    (IsPosDefM (stateAutoCov (scalarTransform 2 0 1 0 1).1) ∧
     (∀ i : Fin 1, IsPosDefM (sensorInno (scalarTransform 2 0 1 0 1).1
        (pYof (idModel 0) (scalarTransform 2 0 1 0 1).1
          (scalarTransform 2 0 1 0 1).2 i.val)))) ∧
    ((stateAutoCov (scalarTransform 2 0 1 0 1).1).transpose =
        stateAutoCov (scalarTransform 2 0 1 0 1).1 ∧
     IsPosDefM ((msUpdate (N := 1) (idModel 0) (scalarTransform 2 0 1 0 1).1
        (scalarTransform 2 0 1 0 1).2 (fun _ => 1)).1.cov)) := by
  have h1 : IsPosDefM (stateAutoCov (scalarTransform 2 0 1 0 1).1) := by
    refine isPosDefM_one_dim _ ?_
    rw [stateAutoCov_one, sT_cxx 2 0 1 0 1 (by norm_num)]
    norm_num
  have h2 : ∀ i : Fin 1, IsPosDefM (sensorInno (scalarTransform 2 0 1 0 1).1
      (pYof (idModel 0) (scalarTransform 2 0 1 0 1).1
        (scalarTransform 2 0 1 0 1).2 i.val)) := by
    intro i
    refine isPosDefM_one_dim _ ?_
    rw [sensorInno_one, sInno, sT_idY_cxy 2 0 1 0 1 (by norm_num) 0 i.val,
      sT_idY_cyy 2 0 1 0 1 (by norm_num) 0 i.val, sT_cxx 2 0 1 0 1 (by norm_num)]
    norm_num
  exact ⟨⟨h1, h2⟩,
    C6_posterior_spd (idModel 0) _ _ (fun _ => 1) h1 h2⟩

/-- C6 counterexample: a concrete single-sensor update with
positive-definite prior state auto-covariance and a non-singular (but
indefinite) innovation covariance whose posterior covariance is not
positive-definite — non-singularity of the innovation covariance does not
suffice. -/
theorem C6_posterior_spd_cex :
    IsPosDefM (stateAutoCov (scalarTransform 1 0 1 0 1).1) ∧
    (sensorInno (scalarTransform 1 0 1 0 1).1
      (pYof tbModel (scalarTransform 1 0 1 0 1).1
        (scalarTransform 1 0 1 0 1).2 0)).det ≠ 0 ∧
    ¬ IsPosDefM ((msUpdate (N := 1) tbModel (scalarTransform 1 0 1 0 1).1
        (scalarTransform 1 0 1 0 1).2 (fun _ => 0)).1.cov) := by
  have hx : IsPosDefM (stateAutoCov (scalarTransform 1 0 1 0 1).1) := by
    refine isPosDefM_one_dim _ ?_
    rw [stateAutoCov_one, sT_cxx 1 0 1 0 1 (by norm_num)]
    norm_num
  have hp : ∀ j : Fin 5, (pYof tbModel (scalarTransform 1 0 1 0 1).1
      (scalarTransform 1 0 1 0 1).2 0).points 0 j =
      ![7 / 2, 5, 1, 1 / 2, 1 / 2] j := by
    intro j
    fin_cases j <;>
      norm_num [pYof, propagatePoints, tbModel, tableObs, sObs, scalarTransform]
  have hw : (pYof tbModel (scalarTransform 1 0 1 0 1).1
      (scalarTransform 1 0 1 0 1).2 0).meanWeights = utWeights 1 := rfl
  have hcw : (pYof tbModel (scalarTransform 1 0 1 0 1).1
      (scalarTransform 1 0 1 0 1).2 0).covWeights = utWeights 1 := rfl
  have hm : (pYof tbModel (scalarTransform 1 0 1 0 1).1
      (scalarTransform 1 0 1 0 1).2 0).mean 0 = 0 := by
    rw [PointSet.mean, Fin.sum_univ_five, hw, hp 0, hp 1, hp 2, hp 3, hp 4]
    norm_num [utWeights]
  have hyc : ∀ j : Fin 5, (pYof tbModel (scalarTransform 1 0 1 0 1).1
      (scalarTransform 1 0 1 0 1).2 0).centered 0 j =
      ![7 / 2, 5, 1, 1 / 2, 1 / 2] j := by
    intro j
    rw [PointSet.centered, hm, hp j, sub_zero]
  have hxc := sT_state_centered 1 0 1 0 1 (by norm_num)
  have hcxy : sCxy (scalarTransform 1 0 1 0 1).1
      (pYof tbModel (scalarTransform 1 0 1 0 1).1
        (scalarTransform 1 0 1 0 1).2 0) = 2 := by
    rw [sCxy, Fin.sum_univ_five, hxc 0, hxc 1, hxc 2, hxc 3, hxc 4,
      hyc 0, hyc 1, hyc 2, hyc 3, hyc 4]
    norm_num [scalarTransform, utWeights]
  have hcyy : sCyy (scalarTransform 1 0 1 0 1).1
      (pYof tbModel (scalarTransform 1 0 1 0 1).1
        (scalarTransform 1 0 1 0 1).2 0) = 1 := by
    rw [sCyy, Fin.sum_univ_five, hyc 0, hyc 1, hyc 2, hyc 3, hyc 4]
    norm_num [scalarTransform, utWeights]
  have hinno : sInno (scalarTransform 1 0 1 0 1).1
      (pYof tbModel (scalarTransform 1 0 1 0 1).1
        (scalarTransform 1 0 1 0 1).2 0) = -3 := by
    rw [sInno, hcxy, hcyy, sT_cxx 1 0 1 0 1 (by norm_num)]
    norm_num
  refine ⟨hx, ?_, ?_⟩
  · rw [Matrix.det_fin_one, sensorInno_one, hinno]
    norm_num
  · have hcov : (msUpdate (N := 1) tbModel (scalarTransform 1 0 1 0 1).1
        (scalarTransform 1 0 1 0 1).2 (fun _ => 0)).1.cov 0 0 = -3 := by
      rw [msUpdate_cov_one, Fin.sum_univ_one, Fin.val_zero, sContribC, hcxy, hinno,
        sT_cxx 1 0 1 0 1 (by norm_num)]
      norm_num
    intro hPD
    have hpos := hPD.2 (fun _ => 1) (by
      intro h0
      have h1 := congrFun h0 0
      norm_num at h1)
    have hq : Matrix.dotProduct (fun _ => (1 : ℚ))
        (((msUpdate (N := 1) tbModel (scalarTransform 1 0 1 0 1).1
          (scalarTransform 1 0 1 0 1).2 (fun _ => 0)).1.cov).mulVec
            (fun _ => 1)) =
        (msUpdate (N := 1) tbModel (scalarTransform 1 0 1 0 1).1
          (scalarTransform 1 0 1 0 1).2 (fun _ => 0)).1.cov 0 0 := by
      simp [Matrix.dotProduct, Matrix.mulVec]
    rw [hq, hcov] at hpos
    norm_num at hpos

/-- C7 (amended): the local-sensor noise distribution is not an input of
the call: it is the policy member `noise_distr_` (source line 192), from
which — together with the prior — the state and noise sigma points of the
invocation are generated (source line 123).  Two policy states with equal
`noise_distr_` members produce identical results on identical call
arguments, whatever their scratch point-set members hold. -/
theorem C7_noise_distr_is_member {dx dq dy K N : ℕ}
    (tf : Belief dx → GaussianDistr dq → PointSet dx K × PointSet dq K)
    (s1 s2 : PolicyMembers dx dq dy K) (h : s1.noiseDistr = s2.noiseDistr)
    (model0 : LocalModel dx dq dy) (prior : Belief dx) (y : Vec (N * dy)) :
    policyUpdate tf s1 model0 prior y = policyUpdate tf s2 model0 prior y := by
  rw [policyUpdate, policyUpdate, h]

/-- C7 witness: two concrete policy states with the same noise member but
different scratch members. -/
theorem C7_noise_distr_is_member_witness :
    ((⟨(scalarTransform 1 0 1 0 1).1, (scalarTransform 1 0 1 0 1).2,
        (scalarTransform 1 0 1 0 1).1, ⟨fun _ => 0, fun _ _ => 1⟩⟩ :
          PolicyMembers 1 1 1 5).noiseDistr =
      (⟨(scalarTransform 1 3 1 0 1).1, (scalarTransform 1 3 1 0 1).2,
        (scalarTransform 1 3 1 0 1).1, ⟨fun _ => 0, fun _ _ => 1⟩⟩ :
          PolicyMembers 1 1 1 5).noiseDistr) ∧
    policyUpdate (N := 1) (scalarTransformB 2)
        ⟨(scalarTransform 1 0 1 0 1).1, (scalarTransform 1 0 1 0 1).2,
          (scalarTransform 1 0 1 0 1).1, ⟨fun _ => 0, fun _ _ => 1⟩⟩
        (idModel 0) ⟨fun _ => 0, fun _ _ => 1⟩ (fun _ => 1) =
      policyUpdate (N := 1) (scalarTransformB 2)
        ⟨(scalarTransform 1 3 1 0 1).1, (scalarTransform 1 3 1 0 1).2,
          (scalarTransform 1 3 1 0 1).1, ⟨fun _ => 0, fun _ _ => 1⟩⟩
        (idModel 0) ⟨fun _ => 0, fun _ _ => 1⟩ (fun _ => 1) :=
  ⟨rfl, C7_noise_distr_is_member (scalarTransformB 2) _ _ rfl (idModel 0)
    ⟨fun _ => 0, fun _ _ => 1⟩ (fun _ => 1)⟩

theorem ratSqrt_one : ratSqrt 1 = 1 := by
  rw [ratSqrt, Rat.num_one, Rat.den_one]
  norm_num

theorem ratSqrt_four : ratSqrt 4 = 2 := by
  rw [ratSqrt]
  have hnum : (4 : ℚ).num.toNat = 4 := rfl
  have hden : (4 : ℚ).den = 1 := rfl
  rw [hnum, hden]
  have h4 : Nat.sqrt 4 = 2 := by norm_num
  rw [h4, Nat.sqrt_one]
  norm_num

/-- C7 counterexample: two invocations with identical call arguments
(model, quadrature, prior belief, joint measurement) but different
`noise_distr_` members produce different posteriors — so the noise
distribution used by the call is not caller-supplied per invocation but
read from the policy object's state, refuting the claim. -/
theorem C7_noise_distr_is_member_cex :
    (policyUpdate (N := 1) (scalarTransformB 2)
        ⟨(scalarTransform 1 0 1 0 1).1, (scalarTransform 1 0 1 0 1).2,
          (scalarTransform 1 0 1 0 1).1, ⟨fun _ => 0, fun _ _ => 1⟩⟩
        (idModel 0) ⟨fun _ => 0, fun _ _ => 1⟩ (fun _ => 1)).1.cov 0 0 ≠
    (policyUpdate (N := 1) (scalarTransformB 2)
        ⟨(scalarTransform 1 0 1 0 1).1, (scalarTransform 1 0 1 0 1).2,
          (scalarTransform 1 0 1 0 1).1, ⟨fun _ => 0, fun _ _ => 4⟩⟩
        (idModel 0) ⟨fun _ => 0, fun _ _ => 1⟩ (fun _ => 1)).1.cov 0 0 := by
  have e1 : (policyUpdate (N := 1) (scalarTransformB 2)
      ⟨(scalarTransform 1 0 1 0 1).1, (scalarTransform 1 0 1 0 1).2,
        (scalarTransform 1 0 1 0 1).1, ⟨fun _ => 0, fun _ _ => 1⟩⟩
      (idModel 0) ⟨fun _ => 0, fun _ _ => 1⟩ (fun _ => 1)).1.cov 0 0 = 1 / 2 := by
    show (msUpdate (N := 1) (idModel 0)
        (scalarTransform 2 0 (ratSqrt 1) 0 (ratSqrt 1)).1
        (scalarTransform 2 0 (ratSqrt 1) 0 (ratSqrt 1)).2
        (fun _ => 1)).1.cov 0 0 = 1 / 2
    rw [ratSqrt_one]
    have h := (scalarScenarioFormulas 2 0 1 1 1 1 0 1 1 (by norm_num) (by norm_num)
      (by norm_num) (by norm_num) (by norm_num)).1
    rw [h]
    norm_num
  have e2 : (policyUpdate (N := 1) (scalarTransformB 2)
      ⟨(scalarTransform 1 0 1 0 1).1, (scalarTransform 1 0 1 0 1).2,
        (scalarTransform 1 0 1 0 1).1, ⟨fun _ => 0, fun _ _ => 4⟩⟩
      (idModel 0) ⟨fun _ => 0, fun _ _ => 1⟩ (fun _ => 1)).1.cov 0 0 = 4 / 5 := by
    show (msUpdate (N := 1) (idModel 0)
        (scalarTransform 2 0 (ratSqrt 1) 0 (ratSqrt 4)).1
        (scalarTransform 2 0 (ratSqrt 1) 0 (ratSqrt 4)).2
        (fun _ => 1)).1.cov 0 0 = 4 / 5
    rw [ratSqrt_one, ratSqrt_four]
    have h := (scalarScenarioFormulas 2 0 1 2 1 1 0 1 4 (by norm_num) (by norm_num)
      (by norm_num) (by norm_num) (by norm_num)).1
    rw [h]
    norm_num
  rw [e1, e2]
  norm_num

/-- C8 (amended): the sensor index is not passed as a per-call argument
of the observation evaluation: it is communicated by assigning it to the
shared local model's mutable id field (`model.id(i)`, source line 143)
before each per-sensor propagation, whose observation call takes only
`(state, noise)`.  After an update with `N ≥ 1` sensors the shared
model's id field holds the last sensor index `N − 1`; its observation
behaviour is unchanged. -/
theorem C8_sensor_id_mutated {dx dq dy K N : ℕ} (hN : 1 ≤ N)
    (model0 : LocalModel dx dq dy) (pX : PointSet dx K) (pQ : PointSet dq K)
    (y : Vec (N * dy)) :
    (msUpdate model0 pX pQ y).2 = ⟨N - 1, model0.obs⟩ := by
  obtain ⟨M, rfl⟩ : ∃ M, N = M + 1 := ⟨N - 1, (Nat.succ_pred_eq_of_pos hN).symm⟩
  rw [msUpdate_model_eq]
  norm_num

/-- C8 witness: a three-sensor update leaves the id field at `2`. -/
theorem C8_sensor_id_mutated_witness :
    1 ≤ 3 ∧
    (msUpdate (N := 3) (idModel 7) onePt onePt (fun _ => 0)).2 =
      ⟨3 - 1, (idModel 7).obs⟩ :=
  ⟨by norm_num,
   C8_sensor_id_mutated (by norm_num) (idModel 7) onePt onePt (fun _ => 0)⟩

/-- C8 counterexample: an update starting from a model whose id field
holds `7` returns the shared model with its id field changed to `2` — a
field of the shared observation model object is mutated by the
per-sensor loop, refuting the claim. -/
theorem C8_sensor_id_mutated_cex :
    (idModel 7).idField = 7 ∧
    (msUpdate (N := 3) (idModel 7) onePt onePt (fun _ => 0)).2.idField = 2 ∧
    (msUpdate (N := 3) (idModel 7) onePt onePt (fun _ => 0)).2 ≠ idModel 7 := by
  have h3 : (msUpdate (N := 3) (idModel 7) onePt onePt (fun _ => 0)).2 =
      ⟨2, (idModel 7).obs⟩ :=
    msUpdate_model_eq 2 (idModel 7) onePt onePt (fun _ => 0)
  refine ⟨rfl, by rw [h3], fun heq => ?_⟩
  rw [h3] at heq
  have hid : (2 : ℕ) = 7 := congrArg LocalModel.idField heq
  norm_num at hid

/-- C9 counterexample: constructing the factorized model with sensor
count `0` (and with `-1`) succeeds and produces a model — no
`InvalidSensorCount` failure exists; the negative count is silently
converted to a huge `size_t` value. -/
theorem C9_invalid_sensor_count_cex :
    (mkFactorizedIID 1 1 1 1 0).factors_ = 0 ∧
    (mkFactorizedIID 1 1 1 1 0).observation_dimension = 0 ∧
    (mkFactorizedIID 1 1 1 1 (-1)).factors_ = 2 ^ 64 - 1 := by
  refine ⟨rfl, rfl, ?_⟩
  show ((-1 : ℤ) % (SIZET : ℤ)).toNat = 2 ^ 64 - 1
  have hS : (SIZET : ℤ) = 2 ^ 64 := by norm_num [SIZET]
  rw [hS]
  decide

/-- C9 (amended): the constructor performs no validation and cannot fail:
any `factors` argument is accepted; `0` is stored as is, and a negative
`int` count is converted to `size_t`, wrapping to the huge value
`factors + 2⁶⁴` — there is no `InvalidSensorCount` error in the code. -/
theorem C9_no_sensor_count_validation (F o st n : ℕ) (f : ℤ)
    (hlo : -(2 ^ 31) ≤ f) (hneg : f < 0) :
    (mkFactorizedIID F o st n f).factors_ = (f + 2 ^ 64).toNat ∧
    2 ^ 64 - 2 ^ 31 ≤ (mkFactorizedIID F o st n f).factors_ := by
  have hfe : (mkFactorizedIID F o st n f).factors_ = (f % (SIZET : ℤ)).toNat :=
    rfl
  have hS : (SIZET : ℤ) = 2 ^ 64 := by norm_num [SIZET]
  rw [hfe, hS]
  have hmod : f % (2 ^ 64 : ℤ) = f + 2 ^ 64 := by
    have h1 : ((f + 2 ^ 64) % (2 ^ 64 : ℤ)) = f % (2 ^ 64 : ℤ) := by
      have := Int.add_mul_emod_self_left (a := f) (b := (2 ^ 64 : ℤ)) (c := 1)
      simpa using this
    have h2 : (0 : ℤ) ≤ f + 2 ^ 64 := by linarith
    have h3 : f + 2 ^ 64 < 2 ^ 64 := by linarith
    rw [← h1, Int.emod_eq_of_lt h2 h3]
  rw [hmod]
  refine ⟨rfl, ?_⟩
  have h2 : (2 ^ 64 - 2 ^ 31 : ℤ) ≤ f + 2 ^ 64 := by linarith
  have hmono := Int.toNat_le_toNat h2
  have hnum : ((2 : ℤ) ^ 64 - 2 ^ 31).toNat = 2 ^ 64 - 2 ^ 31 := by decide
  rw [hnum] at hmono
  exact hmono

/-- C9 witness: `factors = -1` wraps to `2⁶⁴ − 1`. -/
theorem C9_no_sensor_count_validation_witness :
    (-(2 ^ 31) ≤ (-1 : ℤ) ∧ (-1 : ℤ) < 0) ∧
    ((mkFactorizedIID 2 1 1 1 (-1)).factors_ = ((-1 : ℤ) + 2 ^ 64).toNat ∧
      2 ^ 64 - 2 ^ 31 ≤ (mkFactorizedIID 2 1 1 1 (-1)).factors_) :=
  ⟨⟨by norm_num, by norm_num⟩,
   C9_no_sensor_count_validation 2 1 1 1 (-1) (by norm_num) (by norm_num)⟩

/-- C10: the aggregate `Noise` type of `Traits` is declared with the
local *observation* row count (source lines 72–76), while
`predict_observation` reads per-sensor noise slices of size
`noise_dimension()` (source lines 128, 136): for a local model with
noise dimension `2` and observation dimension `1`, already with one
factor, the noise slice `[0, 2)` exceeds the declared aggregate noise
length `1` — the state slices stay in bounds, the noise slices do not. -/
theorem C10_noise_slice_out_of_bounds :
    (∀ i < (mkFactorizedIID 1 1 1 2 1).factors_,
      (i + 1) * (mkFactorizedIID 1 1 1 2 1).localStateDim ≤
        (mkFactorizedIID 1 1 1 2 1).stateTypeRows) ∧
    ¬ predictReadsInBounds (mkFactorizedIID 1 1 1 2 1) := by
  have hf : (mkFactorizedIID 1 1 1 2 1).factors_ = 1 := by
    show ((1 : ℤ) % (SIZET : ℤ)).toNat = 1
    have hS : (SIZET : ℤ) = 2 ^ 64 := by norm_num [SIZET]
    rw [hS]
    norm_num
  constructor
  · intro i hi
    rw [hf] at hi
    interval_cases i
    norm_num [mkFactorizedIID, FactorizedIIDObservationModel.stateTypeRows]
  · intro hall
    have h0 := hall 0 (by rw [hf]; norm_num)
    have h2 := h0.2
    norm_num [mkFactorizedIID, FactorizedIIDObservationModel.noiseTypeRows] at h2

end FL
